import Mathlib

/-!
Verification of the oasis-jsbridge-android invocation/marshalling core.

Shallow embedding of:
* JavaMethod::invoke (Duktape and QuickJS variants, src/main/jni/JavaMethod.cpp)
* JavaScriptMethod (constructor and both invoke variants, JavaScriptMethod.cpp)
* JavaScriptObject constructors (registration check, JavaScriptObject.cpp)
* Parameter.getComponentType / getGenericParameter / invokeMethod (Parameter.kt)

Script-engine values are an abstract type V, Java/JNI reference values an
abstract type J.  Operations the bridge delegates to a JavaType codec or to
the script engine are fields of explicit records, so every theorem is
universally quantified over their behaviour.  C++ undefined behaviour
(out-of-bounds vector or JNI array access) is modelled by the Option layer:
a result of none means the run hit undefined behaviour.
-/

namespace JsBridge

/-- Modelled from the spec: the repository JavaType codecs
(java-types/*.cpp, referenced by JavaMethod.cpp but not part of the given
sources).  Operations used by JavaMethod::invoke to convert one script value
into a Java value (Duktape pop / QuickJS toJava, possibly throwing), and to
collect a list of trailing script argument values into one Java vararg array
(Duktape popArray in expanded mode / QuickJS JS-array plus toJavaArray);
per spec 4.3 the collected values are exactly the arguments at and beyond
position minArgs. -/
structure JavaTypeM (V J : Type) where
  toJava : V → Except String J
  toJavaArray : List V → Except String J

/-- One registered host method as built by the JavaMethod constructor:
name, vararg flag, one JavaType per declared parameter, and the opaque
method body (callMethod/callLambda plus return marshalling), which receives
the Java this reference and the marshalled argument vector.  A missing argument slot
is the default-constructed JValue, modelled as none. -/
structure JavaMethodM (V J T R : Type) where
  methodName : String
  isVarArgs : Bool
  argumentTypes : List (JavaTypeM V J)
  methodBody : T → List (Option J) → R

/-- Declared fixed-parameter count: the vararg collector does not count
(m_argumentTypes.size() - 1 when variadic). -/
def JavaMethodM.minArgs {V J T R : Type} (m : JavaMethodM V J T R) : Nat :=
  if m.isVarArgs then m.argumentTypes.length - 1 else m.argumentTypes.length

/-- The too-many-arguments diagnostic, identical in both engine variants. -/
def JavaMethodM.tooManyMsg {V J T R : Type} (m : JavaMethodM V J T R) (argCount : Nat) : String :=
  "Too many parameters when calling Java method " ++ m.methodName ++
    " (expected: " ++ toString m.minArgs ++ ", received: " ++ toString argCount ++ ")"

/-- Marshalling of the fixed argument at index i: a slot not supplied by the
script caller (i beyond the argument count) is left as the null JValue with
no nullability check; a supplied one is converted by its JavaType.  (The
out-of-range codec lookup branch is unreachable in both invoke variants,
which only use i < minArgs.) -/
def marshalArg {V J : Type} (ts : List (JavaTypeM V J)) (argv : List V) (i : Nat) :
    Except String (Option J) :=
  match ts.get? i with
  | none => .ok none
  | some t =>
    match argv.get? i with
    | none => .ok none
    | some v => (t.toJava v).map some

/-- Duktape fixed-argument loop of JavaMethod::invoke: arguments are taken
off the stack backwards, so index n-1 is converted first and a conversion
error at a higher index surfaces first. -/
def dukFixedArgs {V J : Type} (ts : List (JavaTypeM V J)) (argv : List V) :
    Nat → Except String (List (Option J))
  | 0 => .ok []
  | n + 1 => do
    let v ← marshalArg ts argv n
    let rest ← dukFixedArgs ts argv n
    pure (rest ++ [v])

/-- QuickJS fixed-argument loop of JavaMethod::invoke: arguments are
converted in ascending index order, so an error at the lowest failing index
surfaces first. -/
def qjsFixedArgs {V J : Type} (ts : List (JavaTypeM V J)) (argv : List V) :
    Nat → Except String (List (Option J))
  | 0 => .ok []
  | n + 1 => do
    let rest ← qjsFixedArgs ts argv n
    let v ← marshalArg ts argv n
    pure (rest ++ [v])

/-- JavaMethod::invoke, Duktape variant (JavaMethod.cpp, DUKTAPE block):
count check, vararg collection from the top of the stack first, then the
fixed arguments backwards, then the method body.  A variadic method with an
empty m_argumentTypes vector would evaluate m_argumentTypes.back() on an
empty std::vector, which is undefined behaviour: modelled as none. -/
def dukInvoke {V J T R : Type} (m : JavaMethodM V J T R) (javaThis : T) (argv : List V) :
    Option (Except String R) :=
  let argCount := argv.length
  if m.isVarArgs = false ∧ argCount > m.minArgs then
    some (.error (m.tooManyMsg argCount))
  else if m.isVarArgs then
    match m.argumentTypes.getLast? with
    | none => none
    | some tLast =>
      some (do
        let varVal ← tLast.toJavaArray (argv.drop m.minArgs)
        let fixed ← dukFixedArgs m.argumentTypes argv m.minArgs
        pure (m.methodBody javaThis (fixed ++ [some varVal])))
  else
    some (do
      let fixed ← dukFixedArgs m.argumentTypes argv m.minArgs
      pure (m.methodBody javaThis fixed))

/-- JavaMethod::invoke, QuickJS variant (JavaMethod.cpp, QUICKJS block):
count check, fixed arguments in ascending order, then the trailing values
moved into one array, then the method body.  The same degenerate
variadic-with-no-parameters case is undefined behaviour (none). -/
def qjsInvoke {V J T R : Type} (m : JavaMethodM V J T R) (javaThis : T) (argv : List V) :
    Option (Except String R) :=
  let argc := argv.length
  if m.isVarArgs = false ∧ argc > m.minArgs then
    some (.error (m.tooManyMsg argc))
  else if m.isVarArgs then
    match m.argumentTypes.getLast? with
    | none => none
    | some tLast =>
      some (do
        let fixed ← qjsFixedArgs m.argumentTypes argv m.minArgs
        let varVal ← tLast.toJavaArray (argv.drop m.minArgs)
        pure (m.methodBody javaThis (fixed ++ [some varVal])))
  else
    some (do
      let fixed ← qjsFixedArgs m.argumentTypes argv m.minArgs
      pure (m.methodBody javaThis fixed))

/-- Modelled from the spec: the repository JavaType codecs as used by the
opposite direction in JavaScriptMethod.cpp (Duktape variant): push converts
one Java value into a script value placed on the stack (modelled by
returning the pushed value), pushArray in expand mode converts one Java
vararg array into its script element values, pop converts the script return
value back into a Java value, and isDeferred tells whether the declared
return Kind is already the AsyncResult (Deferred) kind. -/
structure DukJavaType (J V : Type) where
  push : J → Except String V
  pushArray : J → Except String (List V)
  pop : V → Except String J
  isDeferred : Bool

/-- Modelled from the spec: the repository JavaType codecs as used by the
QuickJS variant of JavaScriptMethod.cpp: fromJava converts one Java value
into a script value, fromJavaArray converts one Java vararg array into a
script array whose elements are then read out (modelled by the element
list), toJava converts the script return value back to Java. -/
structure QjsJavaType (J V : Type) where
  fromJava : J → Except String V
  fromJavaArray : J → Except String (List V)
  toJava : V → Except String J
  isDeferred : Bool

/-- One registered script method as built by the JavaScriptMethod
constructor, generic over the engine-specific codec type. -/
structure JsMethodShape (τ : Type) where
  methodName : String
  isLambda : Bool
  isVarArgs : Bool
  argumentTypes : List τ
  returnValueType : τ

/-- Duktape engine operations used by JavaScriptMethod::invoke: pushing the
method-name string, the thenable test on the returned value, and the
protected calls (duk_pcall for a lambda, duk_pcall_prop for an object
method); a call error is the translated script exception message. -/
structure DukEngine (V : Type) where
  strVal : String → V
  isObject : V → Bool
  hasThenProp : V → Bool
  pcall : V → List V → Except String V
  pcallProp : V → String → List V → Except String V

/-- QuickJS engine operations used by JavaScriptMethod::invoke: the
undefined value (produced by out-of-range JS_GetPropertyUint32), the JNI
array-length query on the trailing vararg array, the thenable test, and
JS_Call. -/
structure QjsEngine (J V : Type) where
  undef : V
  arrayLen : J → Nat
  isObject : V → Bool
  hasThenProp : V → Bool
  call : V → V → List V → Except String V

/-- Argument-marshalling loop of the Duktape JavaScriptMethod::invoke
(lines 120-133): per host argument either push one script value, or for the
trailing vararg slot expand the Java array onto the stack and stop.  acc is
the list of script values pushed so far; an error carries the diagnostic,
the loop index i at the failure and the values pushed before it (the
handler pops (isLambda ? 1 : 2) + i values and rethrows).  Reading
m_argumentTypes out of range is undefined behaviour (none). -/
def dukMarshalLoopAux {J V : Type} (ts : List (DukJavaType J V)) (isVarArgs : Bool)
    (total : Nat) : List J → Nat → List V →
    Option (Except (String × Nat × List V) (List V))
  | [], _, acc => some (.ok acc)
  | a :: rest, i, acc =>
    match ts.get? i with
    | none => none
    | some t =>
      if isVarArgs = true ∧ i = total - 1 then
        match t.pushArray a with
        | .error e => some (.error (e, i, acc))
        | .ok vs => some (.ok (acc ++ vs))
      else
        match t.push a with
        | .error e => some (.error (e, i, acc))
        | .ok v => dukMarshalLoopAux ts isVarArgs total rest (i + 1) (acc ++ [v])

/-- Entry point of the Duktape argument loop: iterate over the host
arguments from index i with the values pushed so far. -/
def dukMarshalLoop {J V : Type} (ts : List (DukJavaType J V)) (isVarArgs : Bool)
    (args : List J) (i : Nat) (acc : List V) :
    Option (Except (String × Nat × List V) (List V)) :=
  dukMarshalLoopAux ts isVarArgs args.length (args.drop i) i acc

/-- The values the Duktape invoke pushes before the argument loop: the
object or function from the heap pointer, plus the method-name string for a
non-lambda method. -/
def dukCallExtras {V : Type} (E : DukEngine V) (isLambda : Bool) (methodName : String)
    (objVal : V) : List V :=
  if isLambda then [objVal] else [objVal, E.strVal methodName]

/-- Stack contents after the catch handler of the Duktape argument loop:
the stack held stack0, then the extras, then the i values pushed by the
loop, and duk_pop_n removes extras.length + i values. -/
def dukStackAfterAbort {V : Type} (stack0 extras acc : List V) (i : Nat) : List V :=
  let st := (stack0 ++ extras) ++ acc
  st.take (st.length - (extras.length + i))

/-- JavaScriptMethod::invoke, Duktape variant: marshal the host arguments,
perform the protected call, then marshal the result, bridging a thenable
return through the Deferred type when awaiting is requested and the
declared return type is not already Deferred.  deferredPop is the pop
operation of the JavaTypeProvider Deferred type for the return parameter
(repository code outside the given sources, abstracted). -/
def dukJsInvoke {J V : Type} (E : DukEngine V) (m : JsMethodShape (DukJavaType J V))
    (deferredPop : V → Except String J) (objVal : V) (javaArgs : Option (List J))
    (awaitJsPromise : Bool) : Option (Except String J) :=
  let args := javaArgs.getD []
  match dukMarshalLoop m.argumentTypes m.isVarArgs args 0 [] with
  | none => none
  | some (.error (e, _, _)) => some (.error e)
  | some (.ok jsArgs) =>
    match (if m.isLambda then E.pcall objVal jsArgs else E.pcallProp objVal m.methodName jsArgs) with
    | .error err => some (.error err)
    | .ok ret =>
      let isDeferred := awaitJsPromise && E.isObject ret && E.hasThenProp ret
      if isDeferred = true ∧ m.returnValueType.isDeferred = false then
        some (deferredPop ret)
      else
        some (m.returnValueType.pop ret)

/-- JNI GetObjectArrayElement with an Int index: a null array reference or
an out-of-range index (in particular index -1) is undefined behaviour. -/
def jarrGet {J : Type} (a : Option (List J)) (i : Int) : Option J :=
  match a with
  | none => none
  | some l => if h : 0 ≤ i ∧ i.toNat < l.length then some (l.get ⟨i.toNat, h.2⟩) else none

/-- Number of host arguments: 0 for a null argument array. -/
def numJavaArgs {J : Type} (a : Option (List J)) : Nat := (a.getD []).length

/-- Argument-marshalling loop of the QuickJS JavaScriptMethod::invoke
(lines 181-203): per JS argument slot either convert one host argument, or
once the vararg position numJava - 1 is reached convert the trailing Java
array to a script array and read out varArgCount elements (missing ones are
undefined).  An error carries the diagnostic, the index i at the failure
and the script values produced before it (the handler frees jsArgs[0..i-1]
and rethrows). -/
def qjsMarshalLoopAux {J V : Type} (undef : V) (ts : List (QjsJavaType J V)) (isVarArgs : Bool)
    (args : List J) (varArr : Option J) (varArgCount numJava : Nat) :
    Nat → Nat → List V → Option (Except (String × Nat × List V) (List V))
  | 0, _, acc => some (.ok acc)
  | rem + 1, i, acc =>
    match args.get? i, ts.get? i with
    | some javaArg, some t =>
      if isVarArgs = true ∧ numJava - 1 ≤ i then
        match varArr with
        | none => none
        | some va =>
          match t.fromJavaArray va with
          | .error e => some (.error (e, i, acc))
          | .ok vals =>
            some (.ok (acc ++ (List.range varArgCount).map (fun j => vals.getD j undef)))
      else
        match t.fromJava javaArg with
        | .error e => some (.error (e, i, acc))
        | .ok v => qjsMarshalLoopAux undef ts isVarArgs args varArr varArgCount numJava rem (i + 1) (acc ++ [v])
    | _, _ => none

/-- Entry point of the QuickJS argument loop: the loop runs while
i < numJs, so numJs - i slots remain from index i. -/
def qjsMarshalLoop {J V : Type} (undef : V) (ts : List (QjsJavaType J V)) (isVarArgs : Bool)
    (args : List J) (varArr : Option J) (varArgCount numJava numJs : Nat) (i : Nat)
    (acc : List V) : Option (Except (String × Nat × List V) (List V)) :=
  qjsMarshalLoopAux undef ts isVarArgs args varArr varArgCount numJava (numJs - i) i acc

/-- Call and result-marshalling phase shared by the QuickJS invoke model. -/
def qjsCallPhase {J V : Type} (E : QjsEngine J V) (m : JsMethodShape (QjsJavaType J V))
    (deferredToJava : V → Except String J) (jsMethod jsThis : V) (args : List J)
    (varArr : Option J) (varArgCount numJava numJs : Nat) (awaitJsPromise : Bool) :
    Option (Except String J) :=
  match qjsMarshalLoop E.undef m.argumentTypes m.isVarArgs args varArr varArgCount numJava numJs 0 [] with
  | none => none
  | some (.error (e, _, _)) => some (.error e)
  | some (.ok jsArgs) =>
    match E.call jsMethod jsThis jsArgs with
    | .error err => some (.error err)
    | .ok ret =>
      let isDeferred := awaitJsPromise && E.isObject ret && E.hasThenProp ret
      if isDeferred = true ∧ m.returnValueType.isDeferred = false then
        some (deferredToJava ret)
      else
        some (m.returnValueType.toJava ret)

/-- JavaScriptMethod::invoke, QuickJS variant: when the method is variadic
the host argument at index numJavaArguments - 1 is read unconditionally as
the trailing vararg array before anything else (with a null or empty host
argument array this JNI access is performed at index -1: undefined
behaviour, none), then the arguments are marshalled, the function called,
and the result marshalled with the same thenable bridging as the Duktape
variant. -/
def qjsJsInvoke {J V : Type} (E : QjsEngine J V) (m : JsMethodShape (QjsJavaType J V))
    (deferredToJava : V → Except String J) (jsMethod jsThis : V)
    (javaArgs : Option (List J)) (awaitJsPromise : Bool) : Option (Except String J) :=
  let args := javaArgs.getD []
  let numJava := numJavaArgs javaArgs
  if m.isVarArgs then
    match jarrGet javaArgs ((numJava : Int) - 1) with
    | none => none
    | some va =>
      let varArgCount := E.arrayLen va
      qjsCallPhase E m deferredToJava jsMethod jsThis args (some va) varArgCount numJava
        (numJava + varArgCount - 1) awaitJsPromise
  else
    qjsCallPhase E m deferredToJava jsMethod jsThis args none 0 numJava numJava awaitJsPromise

/-- A JavaType as built by makeUniqueType, recorded as the parameter it was
built from together with the boxed flag that was passed (the JavaType
implementations themselves are outside the given sources; the claims about
the JavaScriptMethod constructor only concern which parameter and which
boxed flag each slot uses). -/
inductive JTypeRep (P : Type) where
  | mk (param : P) (boxed : Bool)
deriving DecidableEq

/-- Boxed flag of a constructed JavaType. -/
def JTypeRep.boxed {P : Type} : JTypeRep P → Bool
  | .mk _ b => b

/-- Argument JavaTypes built by the JavaScriptMethod constructor (lines
59-74): every parameter is loaded boxed because the values flow to a proxy
object, except the trailing vararg slot, which is built from the generic
element parameter of the vararg array with boxed = false. -/
def jsMethodArgTypes {P : Type} (genericParameter : P → P) (params : List P)
    (isVarArgs : Bool) : List (JTypeRep P) :=
  params.enum.map (fun ip =>
    if isVarArgs = true ∧ ip.1 = params.length - 1 then
      JTypeRep.mk (genericParameter ip.2) false
    else
      JTypeRep.mk ip.2 true)

/-- Return JavaType built by the JavaScriptMethod constructor (line 46):
always boxed. -/
def jsMethodReturnType {P : Type} (returnParameter : P) : JTypeRep P :=
  JTypeRep.mk returnParameter true

/-- JavaScriptObject constructor, Duktape variant (JavaScriptObject.cpp,
lines 41-99).  props is the property lookup on the proxied script object
(duk_get_prop_string: none when the object has no such property),
isCallable is duk_is_callable, mkMethod is the JavaScriptMethod
construction for one method (which may throw std::invalid_argument).  The
result is the list of method names entered into the m_methods cache, or the
first thrown diagnostic. -/
def dukRegisterJsObject {V : Type} (isCallable : V → Bool) (objName : String)
    (isValidObject : Bool) (props : String → Option V)
    (mkMethod : String → Except String Unit) (check : Bool) :
    List String → List String → Except String (List String)
  | [], acc => .ok acc
  | name :: rest, acc =>
    if isValidObject = false then
      .error ("JavaScript object " ++ objName ++ " cannot be accessed")
    else
      match (if check then
              match props name with
              | none => some ("JS global " ++ objName ++ " has no method called " ++ name)
              | some v =>
                if isCallable v = false then
                  some ("JS property " ++ objName ++ "." ++ name ++ " not callable")
                else none
             else none) with
      | some e => .error e
      | none =>
        match mkMethod name with
        | .error e =>
          .error ("In proxied method \"" ++ objName ++ "." ++ name ++ "\": " ++ e)
        | .ok _ => dukRegisterJsObject isCallable objName isValidObject props mkMethod check rest (acc ++ [name])

/-- JavaScriptObject constructor, QuickJS variant (JavaScriptObject.cpp,
lines 138-188).  getProp is JS_GetPropertyStr (undefined when the object
has no such property), isUndefined and isFunction the corresponding value
tests.  On a method-construction failure the cache is cleared and the
wrapped diagnostic thrown. -/
def qjsRegisterJsObject {V : Type} (isUndefined isFunction : V → Bool) (objName : String)
    (isValidObject : Bool) (getProp : String → V)
    (mkMethod : String → Except String Unit) (check : Bool) :
    List String → List String → Except String (List String)
  | [], acc => .ok acc
  | name :: rest, acc =>
    if isValidObject = false then
      .error ("Cannot register " ++ objName ++ ". It does not exist or is not a valid object.")
    else
      match (if check then
              (if isUndefined (getProp name) = true then
                some ("JS global " ++ objName ++ " has no method called " ++ name)
              else if isFunction (getProp name) = false then
                some ("JS property " ++ objName ++ "." ++ name ++ " is not function")
              else none)
             else none) with
      | some e => .error e
      | none =>
        match mkMethod name with
        | .error e =>
          .error ("In proxied method \"" ++ objName ++ "." ++ name ++ "\": " ++ e)
        | .ok _ => qjsRegisterJsObject isUndefined isFunction objName isValidObject getProp mkMethod check rest (acc ++ [name])

/-- Whether a name occurs as a contiguous substring of a message, computed
on the underlying character lists. -/
def charsContain {α : Type} [DecidableEq α] : List α → List α → Bool
  | hay, needle =>
    needle.isPrefixOf hay ||
      match hay with
      | [] => false
      | _ :: t => charsContain t needle

/-- A diagnostic message names a method when the method name occurs in it. -/
def msgNames (msg name : String) : Bool := charsContain msg.data name.data

/-- A Java Class as far as the reflection code in Parameter.kt consults it:
its name, whether it is a primitive class, its array component type, and
the names of its public methods. -/
inductive ClassM where
  | mk (name : String) (isPrimitive : Bool) (componentType : Option ClassM)
       (methods : List String)

/-- Class name accessor. -/
def ClassM.cname : ClassM → String
  | .mk n _ _ _ => n

/-- Primitive-class flag accessor. -/
def ClassM.isPrimitive : ClassM → Bool
  | .mk _ p _ _ => p

/-- Array component type accessor. -/
def ClassM.componentType : ClassM → Option ClassM
  | .mk _ _ c _ => c

/-- Public method-name list accessor. -/
def ClassM.methods : ClassM → List String
  | .mk _ _ _ ms => ms

/-- The erased java.lang.Object class used whenever no type information is
available. -/
def anyClass : ClassM := ClassM.mk "java.lang.Object" false none []

/-- A Kotlin KType as far as Parameter.kt consults it: only its list of
type-argument projections matters for the component and generic-parameter
lookups (a star projection carries no type and is modelled as none). -/
inductive KTypeM where
  | mk (arguments : List (Option KTypeM))

/-- Type-argument list accessor. -/
def KTypeM.arguments : KTypeM → List (Option KTypeM)
  | .mk args => args

/-- The Kotlin Parameter class (Parameter.kt): a reflected parameter backed
by an optional KType (full generic information) and an optional Java class
(erased information), plus the name and optionality recorded by the
constructors. -/
structure ParameterM where
  kotlinType : Option KTypeM
  javaClass : Option ClassM
  pname : Option String
  isOptional : Bool

/-- The Parameter(kotlinType) constructor: the Java class is recovered by
the private findJavaClass helper, whose result depends on the JVM
reflection environment (Class.forName, javaObjectType) and is therefore a
parameter of the model. -/
def ParameterM.ofKType (findJavaClass : KTypeM → Option ClassM) (t : KTypeM) : ParameterM :=
  { kotlinType := some t, javaClass := findJavaClass t, pname := none, isOptional := false }

/-- The Parameter(javaClass) constructor: Java-only information, the name
is the class name. -/
def ParameterM.ofClass (c : ClassM) : ParameterM :=
  { kotlinType := none, javaClass := some c, pname := some c.cname, isOptional := false }

/-- Parameter.getComponentType (Parameter.kt lines 162-181): the element
parameter of an array or vararg slot.  A primitive Java component type wins
outright; with no Kotlin type information the raw component type (or the
erased Object class) is used; with Kotlin type information the first type
argument is used when it yields a type, and otherwise the result is null. -/
def ParameterM.getComponentType (findJavaClass : KTypeM → Option ClassM)
    (p : ParameterM) : Option ParameterM :=
  let javaComponentType := p.javaClass.bind ClassM.componentType
  if (javaComponentType.map ClassM.isPrimitive) = some true then
    javaComponentType.map ParameterM.ofClass
  else
    match p.kotlinType with
    | none =>
      match javaComponentType with
      | none => some (ParameterM.ofClass anyClass)
      | some c => some (ParameterM.ofClass c)
    | some t => (t.arguments.head?.bind id).map (ParameterM.ofKType findJavaClass)

/-- Parameter.getGenericParameter (Parameter.kt lines 191-201): the first
generic type argument, the erased Object class when no Kotlin type
information exists, and null when the Kotlin type has no first type
argument yielding a type. -/
def ParameterM.getGenericParameter (findJavaClass : KTypeM → Option ClassM)
    (p : ParameterM) : Option ParameterM :=
  match p.kotlinType with
  | none => some (ParameterM.ofClass anyClass)
  | some t => (t.arguments.head?.bind id).map (ParameterM.ofKType findJavaClass)

/-- A resolved Method wrapper as built by Parameter.invokeMethod: from a
Kotlin member function, from a Java method alone, or from a Java method
enriched with the FunctionX generic argument projections. -/
inductive MethodR where
  | fromKotlin (fnId : Nat)
  | fromJava (name : String)
  | fromJavaWithArgs (name : String) (arguments : List (Option KTypeM))

/-- Fallback branch of Parameter.invokeMethod: scan the raw Java class for
a method literally named invoke; null when the class is absent or owns no
such method; with Kotlin type information the FunctionX type arguments are
merged in. -/
def ParameterM.invokeJavaFallback (p : ParameterM) : Option MethodR :=
  match p.javaClass with
  | none => none
  | some c =>
    match c.methods.find? (fun n => n = "invoke") with
    | none => none
    | some jm =>
      match p.kotlinType with
      | none => some (MethodR.fromJava jm)
      | some t => some (MethodR.fromJavaWithArgs jm t.arguments)

/-- Parameter.invokeMethod (Parameter.kt lines 135-156): memberInvoke
models the kotlin-reflect query
(kotlinType.classifier as? KClass)?.memberFunctions?.firstOrNull named
invoke, which some kotlin-reflect versions crash on (error case).  A crash
is caught and resolution falls back to the Java method scan; a completed
Kotlin lookup returns its result directly (null when it found nothing). -/
def ParameterM.invokeMethod (memberInvoke : KTypeM → Except Unit (Option Nat))
    (p : ParameterM) : Option MethodR :=
  match p.kotlinType with
  | some t =>
    match memberInvoke t with
    | .ok r => r.map MethodR.fromKotlin
    | .error _ => p.invokeJavaFallback
  | none => p.invokeJavaFallback

/-- Whether the raw Java class of a parameter owns a method literally named
invoke. -/
def ParameterM.javaHasInvoke (p : ParameterM) : Bool :=
  match p.javaClass with
  | none => false
  | some c => c.methods.contains "invoke"

/-! ## Helper lemmas -/

theorem except_ok_bind {ε α β : Type} (a : α) (f : α → Except ε β) :
    (Except.ok a >>= f : Except ε β) = f a := rfl

theorem except_error_bind {ε α β : Type} (e : ε) (f : α → Except ε β) :
    (Except.error e >>= f : Except ε β) = Except.error e := rfl

theorem marshalArg_of_missing {V J : Type} (ts : List (JavaTypeM V J)) (argv : List V)
    (i : Nat) (h : argv.length ≤ i) : marshalArg ts argv i = .ok none := by
  have ha : argv[i]? = none := List.getElem?_eq_none h
  cases hts : ts[i]? <;> simp [marshalArg, hts, ha]

theorem fixedArgs_spec {V J : Type} (ts : List (JavaTypeM V J)) (argv : List V) :
    ∀ n, (∀ i, i < n → ∃ r, marshalArg ts argv i = .ok r) →
    ∃ l, dukFixedArgs ts argv n = .ok l ∧ qjsFixedArgs ts argv n = .ok l ∧
      l.length = n ∧ (∀ i, i < n → argv.length ≤ i → l.get? i = some none) := by
  intro n
  induction n with
  | zero =>
    intro _
    exact ⟨[], rfl, rfl, rfl, fun i hi _ => absurd hi (Nat.not_lt_zero i)⟩
  | succ n ih =>
    intro h
    obtain ⟨l, hd, hq, hlen, hnull⟩ := ih (fun i hi => h i (Nat.lt_succ_of_lt hi))
    obtain ⟨v, hv⟩ := h n (Nat.lt_succ_self n)
    refine ⟨l ++ [v], ?_, ?_, ?_, ?_⟩
    · simp [dukFixedArgs, hv, hd, except_ok_bind]
    · simp [qjsFixedArgs, hq, hv, except_ok_bind]
    · simp [hlen]
    · intro i hi hge
      rcases Nat.lt_or_ge i n with hlt | hge2
      · rw [List.get?_append (by omega)]
        exact hnull i hlt hge
      · have hin : i = n := by omega
        subst hin
        have hv2 : marshalArg ts argv i = .ok none := marshalArg_of_missing ts argv i hge
        rw [hv] at hv2
        injection hv2 with hv3
        subst hv3
        rw [List.get?_append_right (by omega)]
        simp [hlen]

/-! ## C1 -/

/-- C1: invoking a non-variadic host method through JavaMethod::invoke with
strictly more script arguments than minArgs makes both the Duktape and the
QuickJS variant raise the invalid-argument (ArgumentCountError) diagnostic.
The resulting value is independent of methodBody (the statement holds for
every method over any body type), so the foreign host call is never
performed. -/
theorem C1_too_many_args_rejected {V J T R : Type} (m : JavaMethodM V J T R) (javaThis : T)
    (argv : List V) (hv : m.isVarArgs = false) (hgt : argv.length > m.minArgs) :
    dukInvoke m javaThis argv = some (.error (m.tooManyMsg argv.length)) ∧
    qjsInvoke m javaThis argv = some (.error (m.tooManyMsg argv.length)) := by
  constructor <;> simp [dukInvoke, qjsInvoke, hv, hgt]

/-- A concrete two-parameter non-variadic method used by several witnesses. -/
def natJavaType : JavaTypeM Nat Nat :=
  { toJava := fun v => .ok v, toJavaArray := fun l => .ok l.length }

/-- A host method f(Nat, Nat) whose body returns the argument count. -/
def exMethod2 : JavaMethodM Nat Nat Unit Nat :=
  { methodName := "f", isVarArgs := false,
    argumentTypes := [natJavaType, natJavaType],
    methodBody := fun _ args => args.length }

/-- Witness for C1: the non-variadic two-parameter method called with three
arguments fails with the ArgumentCountError message in both variants. -/
theorem C1_too_many_args_rejected_witness :
    dukInvoke exMethod2 () [1, 2, 3] =
      some (.error "Too many parameters when calling Java method f (expected: 2, received: 3)") ∧
    qjsInvoke exMethod2 () [1, 2, 3] =
      some (.error "Too many parameters when calling Java method f (expected: 2, received: 3)") := by
  have h := C1_too_many_args_rejected exMethod2 () [1, 2, 3] rfl (by decide)
  exact ⟨by rw [h.1]; rfl, by rw [h.2]; rfl⟩

/-! ## C2 -/

/-- C2: invoking a host method through JavaMethod::invoke with fewer script
arguments than minArgs does not fail at the bridge: provided each supplied
argument converts, both variants invoke the method body, with every missing
trailing fixed parameter passed as the null JValue (none) — no default-value
lookup and no nullability check happens.  The toJavaArray hypothesis covers
the variadic case, in which the (empty) list of trailing script values is
still collected into one vararg array. -/
theorem C2_missing_args_become_null {V J T R : Type} (m : JavaMethodM V J T R) (javaThis : T)
    (argv : List V)
    (hwf : m.isVarArgs = true → m.argumentTypes ≠ [])
    (hlt : argv.length < m.minArgs)
    (hfix : ∀ i, i < m.minArgs → ∃ r, marshalArg m.argumentTypes argv i = .ok r)
    (hvar : ∀ t, m.argumentTypes.getLast? = some t →
      ∃ j, t.toJavaArray (argv.drop m.minArgs) = .ok j) :
    ∃ args, dukInvoke m javaThis argv = some (.ok (m.methodBody javaThis args)) ∧
      qjsInvoke m javaThis argv = some (.ok (m.methodBody javaThis args)) ∧
      args.length = m.argumentTypes.length ∧
      (∀ i, argv.length ≤ i → i < m.minArgs → args.get? i = some none) := by
  obtain ⟨l, hd, hq, hlen, hnull⟩ := fixedArgs_spec m.argumentTypes argv m.minArgs hfix
  cases hvb : m.isVarArgs with
  | false =>
    refine ⟨l, ?_, ?_, ?_, fun i h1 h2 => hnull i h2 h1⟩
    · simp [dukInvoke, hvb, Nat.not_lt_of_lt hlt, hd, except_ok_bind]
    · simp [qjsInvoke, hvb, Nat.not_lt_of_lt hlt, hq, except_ok_bind]
    · rw [hlen]
      simp [JavaMethodM.minArgs, hvb]
  | true =>
    have hne : m.argumentTypes ≠ [] := hwf hvb
    cases hlast : m.argumentTypes.getLast? with
    | none => exact absurd (List.getLast?_eq_none_iff.mp hlast) hne
    | some tLast =>
      obtain ⟨j, hj⟩ := hvar tLast hlast
      refine ⟨l ++ [some j], ?_, ?_, ?_, ?_⟩
      · simp [dukInvoke, hvb, hlast, hj, hd, except_ok_bind]
      · simp [qjsInvoke, hvb, hlast, hj, hq, except_ok_bind]
      · have : m.argumentTypes.length ≠ 0 := fun h0 => hne (List.length_eq_zero.mp h0)
        simp [hlen, JavaMethodM.minArgs, hvb]
        omega
      · intro i h1 h2
        rw [List.get?_append (by omega)]
        exact hnull i h2 h1

/-- A variadic host method g(Nat, Nat, vararg Nat) used by witnesses. -/
def exMethodVar : JavaMethodM Nat Nat Unit Nat :=
  { methodName := "g", isVarArgs := true,
    argumentTypes := [natJavaType, natJavaType, natJavaType],
    methodBody := fun _ args => args.length }

/-- Witness for C2: the variadic method with minArgs = 2 invoked with one
script argument succeeds in both variants, the second fixed parameter is
null and the vararg array collects zero trailing values. -/
theorem C2_missing_args_become_null_witness :
    ∃ args, dukInvoke exMethodVar () [5] = some (.ok (exMethodVar.methodBody () args)) ∧
      qjsInvoke exMethodVar () [5] = some (.ok (exMethodVar.methodBody () args)) ∧
      args.length = exMethodVar.argumentTypes.length ∧
      (∀ i, [5].length ≤ i → i < exMethodVar.minArgs → args.get? i = some none) :=
  C2_missing_args_become_null exMethodVar () [5]
    (fun _ => List.cons_ne_nil _ _)
    (by decide)
    (fun i hi => by
      have hm : exMethodVar.minArgs = 2 := rfl
      rw [hm] at hi
      rcases i with _ | _ | n
      · exact ⟨some 5, rfl⟩
      · exact ⟨none, rfl⟩
      · exact absurd hi (by omega))
    (fun t ht => ⟨0, by injection ht with h; rw [← h]; rfl⟩)

/-! ## C9 -/

/-- C9: the Duktape and QuickJS variants of JavaMethod::invoke are
observationally equivalent for argument handling: they compute minArgs by
the same rule, reject too many arguments for a non-variadic method under
the same condition with the identical message, and — whenever the
per-argument conversions succeed — produce identical results, filling the
same missing fixed parameters with null and collecting the same trailing
values (the script arguments from position minArgs onward) into the vararg
array before invoking the same method body. -/
theorem C9_duktape_quickjs_equivalent {V J T R : Type} (m : JavaMethodM V J T R)
    (javaThis : T) (argv : List V) :
    ((m.isVarArgs = false ∧ argv.length > m.minArgs) →
      dukInvoke m javaThis argv = some (.error (m.tooManyMsg argv.length)) ∧
      qjsInvoke m javaThis argv = some (.error (m.tooManyMsg argv.length))) ∧
    ((m.isVarArgs = true → m.argumentTypes ≠ []) →
     (∀ i, i < m.minArgs → ∃ r, marshalArg m.argumentTypes argv i = .ok r) →
     (∀ t, m.argumentTypes.getLast? = some t →
        ∃ j, t.toJavaArray (argv.drop m.minArgs) = .ok j) →
      dukInvoke m javaThis argv = qjsInvoke m javaThis argv) := by
  constructor
  · intro ⟨hv, hgt⟩
    constructor <;> simp [dukInvoke, qjsInvoke, hv, hgt]
  · intro hwf hfix hvar
    obtain ⟨l, hd, hq, _, _⟩ := fixedArgs_spec m.argumentTypes argv m.minArgs hfix
    by_cases htm : m.isVarArgs = false ∧ argv.length > m.minArgs
    · simp [dukInvoke, qjsInvoke, htm.1, htm.2]
    · cases hvb : m.isVarArgs with
      | false =>
        rw [hvb] at htm
        simp [dukInvoke, qjsInvoke, hvb, hd, hq, except_ok_bind, htm]
      | true =>
        have hne : m.argumentTypes ≠ [] := hwf hvb
        cases hlast : m.argumentTypes.getLast? with
        | none => exact absurd (List.getLast?_eq_none_iff.mp hlast) hne
        | some tLast =>
          obtain ⟨j, hj⟩ := hvar tLast hlast
          simp [dukInvoke, qjsInvoke, hvb, hlast, hj, hd, hq, except_ok_bind]

/-- Witness for C9: a variadic method invoked with four arguments gives the
same successful result in both variants. -/
theorem C9_duktape_quickjs_equivalent_witness :
    dukInvoke exMethodVar () [1, 2, 3, 4] = qjsInvoke exMethodVar () [1, 2, 3, 4] :=
  (C9_duktape_quickjs_equivalent exMethodVar () [1, 2, 3, 4]).2
    (fun _ => List.cons_ne_nil _ _)
    (fun i hi => by
      have hm : exMethodVar.minArgs = 2 := rfl
      rw [hm] at hi
      rcases i with _ | _ | n
      · exact ⟨some 1, rfl⟩
      · exact ⟨some 2, rfl⟩
      · exact absurd hi (by omega))
    (fun t ht => ⟨2, by injection ht with h; rw [← h]; rfl⟩)

/-! ## C3 -/

/-- C3: for a successful script-function call through either
JavaScriptMethod::invoke variant, when awaiting is requested, the returned
value is an object with a "then" property, and the declared return type is
not already the Deferred (AsyncResult) kind, the result goes through the
dedicated Deferred bridging marshaller; in every other case it goes through
the declared return marshaller. -/
theorem C3_thenable_return_bridged {J V : Type} (E : DukEngine V) (Q : QjsEngine J V)
    (md : JsMethodShape (DukJavaType J V)) (mq : JsMethodShape (QjsJavaType J V))
    (deferredPop deferredToJava : V → Except String J) (objVal jsMethod jsThis : V)
    (javaArgsD : Option (List J)) (argsQ : List J) (varArrQ : Option J)
    (varArgCountQ numJavaQ numJsQ : Nat) (await : Bool)
    (jsArgsD jsArgsQ : List V) (retD retQ : V)
    (hmD : dukMarshalLoop md.argumentTypes md.isVarArgs (javaArgsD.getD []) 0 [] = some (.ok jsArgsD))
    (hcD : (if md.isLambda then E.pcall objVal jsArgsD else E.pcallProp objVal md.methodName jsArgsD) = .ok retD)
    (hmQ : qjsMarshalLoop Q.undef mq.argumentTypes mq.isVarArgs argsQ varArrQ varArgCountQ numJavaQ numJsQ 0 [] = some (.ok jsArgsQ))
    (hcQ : Q.call jsMethod jsThis jsArgsQ = .ok retQ) :
    ((await && E.isObject retD && E.hasThenProp retD) = true → md.returnValueType.isDeferred = false →
      dukJsInvoke E md deferredPop objVal javaArgsD await = some (deferredPop retD)) ∧
    (¬ ((await && E.isObject retD && E.hasThenProp retD) = true ∧ md.returnValueType.isDeferred = false) →
      dukJsInvoke E md deferredPop objVal javaArgsD await = some (md.returnValueType.pop retD)) ∧
    ((await && Q.isObject retQ && Q.hasThenProp retQ) = true → mq.returnValueType.isDeferred = false →
      qjsCallPhase Q mq deferredToJava jsMethod jsThis argsQ varArrQ varArgCountQ numJavaQ numJsQ await = some (deferredToJava retQ)) ∧
    (¬ ((await && Q.isObject retQ && Q.hasThenProp retQ) = true ∧ mq.returnValueType.isDeferred = false) →
      qjsCallPhase Q mq deferredToJava jsMethod jsThis argsQ varArrQ varArgCountQ numJavaQ numJsQ await = some (mq.returnValueType.toJava retQ)) := by
  refine ⟨?_, ?_, ?_, ?_⟩
  · intro h1 h2
    simp [dukJsInvoke, hmD, hcD, h1, h2]
  · intro h
    simp only [dukJsInvoke, hmD, hcD]
    rw [if_neg h]
  · intro h1 h2
    simp [qjsCallPhase, hmQ, hcQ, h1, h2]
  · intro h
    simp only [qjsCallPhase, hmQ, hcQ]
    rw [if_neg h]

/-- Concrete Duktape return codec for witnesses. -/
def exDukRetType : DukJavaType Nat Nat :=
  { push := fun j => .ok (j + 100), pushArray := fun _ => .ok [],
    pop := fun v => .ok (v + 1), isDeferred := false }

/-- Concrete Duktape engine for witnesses: every call returns the value 7,
which is an object with a "then" property. -/
def exDukEngine : DukEngine Nat :=
  { strVal := fun _ => 0, isObject := fun v => v == 7, hasThenProp := fun v => v == 7,
    pcall := fun _ _ => .ok 7, pcallProp := fun _ _ _ => .ok 7 }

/-- Concrete zero-argument Duktape lambda method for witnesses. -/
def exDukMethod : JsMethodShape (DukJavaType Nat Nat) :=
  { methodName := "m", isLambda := true, isVarArgs := false,
    argumentTypes := [], returnValueType := exDukRetType }

/-- Concrete QuickJS return codec for witnesses. -/
def exQjsRetType : QjsJavaType Nat Nat :=
  { fromJava := fun j => .ok (j + 100), fromJavaArray := fun _ => .ok [],
    toJava := fun v => .ok (v + 1), isDeferred := false }

/-- Concrete QuickJS engine for witnesses. -/
def exQjsEngine : QjsEngine Nat Nat :=
  { undef := 99, arrayLen := fun _ => 0, isObject := fun v => v == 7,
    hasThenProp := fun v => v == 7, call := fun _ _ _ => .ok 7 }

/-- Concrete zero-argument QuickJS method for witnesses. -/
def exQjsMethod : JsMethodShape (QjsJavaType Nat Nat) :=
  { methodName := "m", isLambda := false, isVarArgs := false,
    argumentTypes := [], returnValueType := exQjsRetType }

/-- Witness for C3: a call that returns the thenable value 7 with awaiting
requested and a non-Deferred declared return type is marshalled through the
Deferred bridge (doubling, yielding 14) rather than the declared return
marshaller (incrementing). -/
theorem C3_thenable_return_bridged_witness :
    dukJsInvoke exDukEngine exDukMethod (fun v => .ok (v * 2)) 0 (some []) true = some (.ok 14) ∧
    qjsCallPhase exQjsEngine exQjsMethod (fun v => .ok (v * 2)) 0 0 [] none 0 0 0 true = some (.ok 14) := by
  have h := C3_thenable_return_bridged exDukEngine exQjsEngine exDukMethod exQjsMethod
    (fun v => .ok (v * 2)) (fun v => .ok (v * 2)) 0 0 0 (some []) [] none 0 0 0 true
    [] [] 7 7 rfl rfl rfl rfl
  exact ⟨by rw [h.1 rfl rfl], by rw [h.2.2.1 rfl rfl]⟩

/-! ## C4 -/

theorem dukMarshalLoopAux_abort {J V : Type} (ts : List (DukJavaType J V)) (isVarArgs : Bool)
    (total : Nat) :
    ∀ (rest : List J) (i0 : Nat) (acc0 : List V) (e : String) (i : Nat) (acc : List V),
      dukMarshalLoopAux ts isVarArgs total rest i0 acc0 = some (.error (e, i, acc)) →
      acc.length + i0 = acc0.length + i ∧ i0 ≤ i := by
  intro rest
  induction rest with
  | nil =>
    intro i0 acc0 e i acc h
    simp [dukMarshalLoopAux] at h
  | cons a rest ih =>
    intro i0 acc0 e i acc h
    cases hts : ts[i0]? with
    | none => simp [dukMarshalLoopAux, hts] at h
    | some t =>
      simp only [dukMarshalLoopAux, List.get?_eq_getElem?, hts] at h
      by_cases hc : isVarArgs = true ∧ i0 = total - 1
      · rw [if_pos hc] at h
        cases hpa : t.pushArray a with
        | error e2 =>
          simp only [hpa, Option.some.injEq, Except.error.injEq, Prod.mk.injEq] at h
          obtain ⟨-, h2, h3⟩ := h
          subst h2; subst h3
          omega
        | ok vs => simp [hpa] at h
      · rw [if_neg hc] at h
        cases hp : t.push a with
        | error e2 =>
          simp only [hp, Option.some.injEq, Except.error.injEq, Prod.mk.injEq] at h
          obtain ⟨-, h2, h3⟩ := h
          subst h2; subst h3
          omega
        | ok v =>
          simp only [hp] at h
          obtain ⟨h1, h2⟩ := ih (i0 + 1) (acc0 ++ [v]) e i acc h
          simp only [List.length_append, List.length_cons, List.length_nil] at h1
          omega

theorem qjsMarshalLoopAux_abort {J V : Type} (undef : V) (ts : List (QjsJavaType J V))
    (isVarArgs : Bool) (args : List J) (varArr : Option J) (varArgCount numJava : Nat) :
    ∀ (rem i0 : Nat) (acc0 : List V) (e : String) (i : Nat) (acc : List V),
      qjsMarshalLoopAux undef ts isVarArgs args varArr varArgCount numJava rem i0 acc0 =
        some (.error (e, i, acc)) →
      acc.length + i0 = acc0.length + i ∧ i0 ≤ i := by
  intro rem
  induction rem with
  | zero =>
    intro i0 acc0 e i acc h
    simp [qjsMarshalLoopAux] at h
  | succ rem ih =>
    intro i0 acc0 e i acc h
    cases ha : args[i0]? with
    | none => simp [qjsMarshalLoopAux, ha] at h
    | some javaArg =>
      cases hts : ts[i0]? with
      | none => simp [qjsMarshalLoopAux, ha, hts] at h
      | some t =>
        simp only [qjsMarshalLoopAux, List.get?_eq_getElem?, ha, hts] at h
        by_cases hc : isVarArgs = true ∧ numJava - 1 ≤ i0
        · rw [if_pos hc] at h
          cases varArr with
          | none => exact absurd h (by simp)
          | some va =>
            cases hfa : t.fromJavaArray va with
            | error e2 =>
              simp only [hfa, Option.some.injEq, Except.error.injEq, Prod.mk.injEq] at h
              obtain ⟨-, h2, h3⟩ := h
              subst h2; subst h3
              omega
            | ok vals => simp [hfa] at h
        · rw [if_neg hc] at h
          cases hf : t.fromJava javaArg with
          | error e2 =>
            simp only [hf, Option.some.injEq, Except.error.injEq, Prod.mk.injEq] at h
            obtain ⟨-, h2, h3⟩ := h
            subst h2; subst h3
            omega
          | ok v =>
            simp only [hf] at h
            obtain ⟨h1, h2⟩ := ih (i0 + 1) (acc0 ++ [v]) e i acc h
            simp only [List.length_append, List.length_cons, List.length_nil] at h1
            omega

theorem stackAfterAbort_restores {V : Type} (stack0 extras acc : List V) (i : Nat)
    (h : acc.length = i) : dukStackAfterAbort stack0 extras acc i = stack0 := by
  unfold dukStackAfterAbort
  rw [List.append_assoc]
  apply List.take_left'
  simp only [List.length_append]
  omega

/-- C4: if marshalling the argument at loop index i into a script value
fails, both JavaScriptMethod::invoke variants re-raise that error, and
every script value already produced for the preceding arguments is released
first: in Duktape the pop of (isLambda ? 1 : 2) + i values returns the
stack exactly to its state before the call was set up, and in QuickJS
freeing jsArgs[0..i-1] frees exactly the values produced (the produced
count equals the failing index). -/
theorem C4_abort_releases_arguments {J V : Type} (E : DukEngine V) (Q : QjsEngine J V)
    (md : JsMethodShape (DukJavaType J V)) (mq : JsMethodShape (QjsJavaType J V))
    (deferredPop deferredToJava : V → Except String J) (objVal jsMethod jsThis : V)
    (javaArgsD : Option (List J)) (argsQ : List J) (varArrQ : Option J)
    (varArgCountQ numJavaQ numJsQ : Nat) (await : Bool) (stack0 : List V)
    (e1 e2 : String) (i1 i2 : Nat) (acc1 acc2 : List V) :
    (dukMarshalLoop md.argumentTypes md.isVarArgs (javaArgsD.getD []) 0 [] = some (.error (e1, i1, acc1)) →
      dukJsInvoke E md deferredPop objVal javaArgsD await = some (.error e1) ∧
      acc1.length = i1 ∧
      dukStackAfterAbort stack0 (dukCallExtras E md.isLambda md.methodName objVal) acc1 i1 = stack0) ∧
    (qjsMarshalLoop Q.undef mq.argumentTypes mq.isVarArgs argsQ varArrQ varArgCountQ numJavaQ numJsQ 0 [] = some (.error (e2, i2, acc2)) →
      qjsCallPhase Q mq deferredToJava jsMethod jsThis argsQ varArrQ varArgCountQ numJavaQ numJsQ await = some (.error e2) ∧
      acc2.length = i2 ∧ acc2.take i2 = acc2) := by
  constructor
  · intro hD
    have hinv := dukMarshalLoopAux_abort md.argumentTypes md.isVarArgs
      (javaArgsD.getD []).length ((javaArgsD.getD []).drop 0) 0 [] e1 i1 acc1 hD
    have hlen : acc1.length = i1 := by
      simpa using hinv.1
    exact ⟨by simp [dukJsInvoke, hD], hlen, stackAfterAbort_restores _ _ _ _ hlen⟩
  · intro hQ
    have hinv := qjsMarshalLoopAux_abort Q.undef mq.argumentTypes mq.isVarArgs argsQ
      varArrQ varArgCountQ numJavaQ (numJsQ - 0) 0 [] e2 i2 acc2 hQ
    have hlen : acc2.length = i2 := by
      simpa using hinv.1
    refine ⟨by simp [qjsCallPhase, hQ], hlen, ?_⟩
    rw [← hlen]
    exact List.take_length acc2

/-- Concrete always-failing Duktape argument codec for witnesses. -/
def exDukFailType : DukJavaType Nat Nat :=
  { push := fun _ => .error "cannot marshal", pushArray := fun _ => .error "cannot marshal",
    pop := fun v => .ok v, isDeferred := false }

/-- Concrete two-argument Duktape method whose second argument codec fails. -/
def exDukMethodFail : JsMethodShape (DukJavaType Nat Nat) :=
  { methodName := "h", isLambda := false, isVarArgs := false,
    argumentTypes := [exDukRetType, exDukFailType], returnValueType := exDukRetType }

/-- Concrete always-failing QuickJS argument codec for witnesses. -/
def exQjsFailType : QjsJavaType Nat Nat :=
  { fromJava := fun _ => .error "cannot marshal", fromJavaArray := fun _ => .error "cannot marshal",
    toJava := fun v => .ok v, isDeferred := false }

/-- Concrete two-argument QuickJS method whose second argument codec fails. -/
def exQjsMethodFail : JsMethodShape (QjsJavaType Nat Nat) :=
  { methodName := "h", isLambda := false, isVarArgs := false,
    argumentTypes := [exQjsRetType, exQjsFailType], returnValueType := exQjsRetType }

/-- Witness for C4: with arguments [1, 2], the first argument is marshalled
(one script value produced) and the second fails; both variants raise the
marshalling error, the Duktape stack returns to its pre-call state [55] and
the QuickJS handler frees exactly the produced value. -/
theorem C4_abort_releases_arguments_witness :
    dukJsInvoke exDukEngine exDukMethodFail (fun v => .ok v) 3 (some [1, 2]) false =
      some (.error "cannot marshal") ∧
    dukStackAfterAbort [55] (dukCallExtras exDukEngine exDukMethodFail.isLambda exDukMethodFail.methodName 3) [101] 1 = [55] ∧
    qjsCallPhase exQjsEngine exQjsMethodFail (fun v => .ok v) 0 0 [1, 2] none 0 2 2 false =
      some (.error "cannot marshal") ∧
    [101].take 1 = [101] := by
  have h := C4_abort_releases_arguments exDukEngine exQjsEngine exDukMethodFail exQjsMethodFail
    (fun v => .ok v) (fun v => .ok v) 3 0 0 (some [1, 2]) [1, 2] none 0 2 2 false [55]
    "cannot marshal" "cannot marshal" 1 1 [101] [101]
  obtain ⟨hd1, -, hd3⟩ := h.1 rfl
  obtain ⟨hq1, -, hq3⟩ := h.2 rfl
  exact ⟨hd1, hd3, hq1, hq3⟩

/-! ## C10 -/

/-- C10: in the QuickJS variant of JavaScriptMethod::invoke, a variadic
method reads the host argument at index numJavaArguments - 1 as the vararg
array before any other processing, so with a null or empty host argument
array the JNI access is performed at index -1 (undefined behaviour, none in
the model): every variadic invocation requires a non-null host argument
array with at least the trailing vararg array in it. -/
theorem C10_qjs_vararg_requires_arg {J V : Type} (Q : QjsEngine J V)
    (mq : JsMethodShape (QjsJavaType J V)) (deferredToJava : V → Except String J)
    (jsMethod jsThis : V) (javaArgs : Option (List J)) (await : Bool)
    (hv : mq.isVarArgs = true) (hempty : javaArgs = none ∨ javaArgs = some []) :
    ((numJavaArgs javaArgs : Int) - 1 = -1) ∧
    qjsJsInvoke Q mq deferredToJava jsMethod jsThis javaArgs await = none := by
  rcases hempty with h | h <;> subst h <;>
    exact ⟨rfl, by simp [qjsJsInvoke, numJavaArgs, jarrGet, hv]⟩

/-- Witness for C10: the variadic QuickJS method invoked with an empty host
argument array computes the access index -1 and hits undefined behaviour. -/
theorem C10_qjs_vararg_requires_arg_witness :
    ((numJavaArgs (some ([] : List Nat)) : Int) - 1 = -1) ∧
    qjsJsInvoke exQjsEngine
      { methodName := "v", isLambda := false, isVarArgs := true,
        argumentTypes := [exQjsRetType], returnValueType := exQjsRetType }
      (fun v => .ok v) 0 0 (some []) false = none :=
  C10_qjs_vararg_requires_arg exQjsEngine
    { methodName := "v", isLambda := false, isVarArgs := true,
      argumentTypes := [exQjsRetType], returnValueType := exQjsRetType }
    (fun v => .ok v) 0 0 (some []) false rfl (Or.inr rfl)

/-! ## C5 -/

theorem isPrefixOf_append_self {α : Type} [DecidableEq α] :
    ∀ (l s : List α), l.isPrefixOf (l ++ s) = true := by
  intro l s
  induction l with
  | nil => simp
  | cons a t ih => simp [List.isPrefixOf_cons₂, ih]

theorem charsContain_append_mid {α : Type} [DecidableEq α] :
    ∀ (p n s : List α), charsContain (p ++ (n ++ s)) n = true := by
  intro p n s
  induction p with
  | nil =>
    unfold charsContain
    simp only [List.nil_append]
    rw [isPrefixOf_append_self]
    simp
  | cons a p ih =>
    unfold charsContain
    simp [ih]

theorem msgNames_suffix (p n : String) : msgNames (p ++ n) n = true := by
  unfold msgNames
  rw [String.data_append]
  have h := charsContain_append_mid p.data n.data []
  rwa [List.append_nil] at h

theorem msgNames_mid (p n s : String) : msgNames (p ++ n ++ s) n = true := by
  unfold msgNames
  rw [String.data_append, String.data_append, List.append_assoc]
  exact charsContain_append_mid p.data n.data s.data

/-- C5 counterexample: registering a script object whose required methods
"aaa" and "zzz" are both missing from the proxied object with check = true
throws a diagnostic naming only the first entry; the equally missing entry
"zzz" is not covered, so the failure is not one combined diagnostic
covering every missing entry (the claim as stated is false at this input,
in both engine variants). -/
theorem C5_counterexample :
    dukRegisterJsObject (fun (_ : Nat) => true) "xx" true (fun _ => none)
      (fun _ => .ok ()) true ["aaa", "zzz"] [] =
      .error "JS global xx has no method called aaa" ∧
    qjsRegisterJsObject (fun (v : Nat) => v == 0) (fun v => v == 1) "xx" true (fun _ => 0)
      (fun _ => .ok ()) true ["aaa", "zzz"] [] =
      .error "JS global xx has no method called aaa" ∧
    msgNames "JS global xx has no method called aaa" "zzz" = false := by
  refine ⟨rfl, rfl, by decide⟩

/-- C5 (amended): with check = true the constructor eagerly verifies the
required method names at registration time and fails fast: it throws on the
first entry in list order that is missing or not callable, with one
diagnostic naming that entry; entries after it are not inspected, so a
second missing entry is not covered by the diagnostic. -/
theorem C5_amended_first_failure {V W : Type} (isCallable : V → Bool)
    (isUndefined isFunction : W → Bool) (objName : String)
    (props : String → Option V) (getProp : String → W)
    (mkMethodD mkMethodQ : String → Except String Unit)
    (pre : List String) (nm : String) (post : List String) (acc : List String) :
    ((props nm = none ∨ (∃ v, props nm = some v ∧ isCallable v = false)) →
     (∀ n ∈ pre, (∃ v, props n = some v ∧ isCallable v = true) ∧ mkMethodD n = .ok ()) →
      ∃ msg, dukRegisterJsObject isCallable objName true props mkMethodD true
          (pre ++ nm :: post) acc = .error msg ∧ msgNames msg nm = true) ∧
    ((isUndefined (getProp nm) = true ∨
        (isUndefined (getProp nm) = false ∧ isFunction (getProp nm) = false)) →
     (∀ n ∈ pre, isUndefined (getProp n) = false ∧ isFunction (getProp n) = true ∧
        mkMethodQ n = .ok ()) →
      ∃ msg, qjsRegisterJsObject isUndefined isFunction objName true getProp mkMethodQ true
          (pre ++ nm :: post) acc = .error msg ∧ msgNames msg nm = true) := by
  induction pre generalizing acc with
  | nil =>
    constructor
    · intro hbad _
      rcases hbad with hmiss | ⟨v, hv, hcall⟩
      · refine ⟨"JS global " ++ objName ++ " has no method called " ++ nm,
          ?_, msgNames_suffix _ _⟩
        simp [dukRegisterJsObject, hmiss]
      · refine ⟨"JS property " ++ objName ++ "." ++ nm ++ " not callable",
          ?_, msgNames_mid _ _ _⟩
        simp [dukRegisterJsObject, hv, hcall]
    · intro hbad _
      rcases hbad with hu | ⟨hu, hf⟩
      · refine ⟨"JS global " ++ objName ++ " has no method called " ++ nm,
          ?_, msgNames_suffix _ _⟩
        simp [qjsRegisterJsObject, hu]
      · refine ⟨"JS property " ++ objName ++ "." ++ nm ++ " is not function",
          ?_, msgNames_mid _ _ _⟩
        simp [qjsRegisterJsObject, hu, hf]
  | cons n pre ih =>
    constructor
    · intro hbad hpre
      obtain ⟨⟨v, hv, hcall⟩, hmk⟩ := hpre n (List.mem_cons_self n pre)
      obtain ⟨msg, hmsg, hnames⟩ := (ih (acc ++ [n])).1 hbad
        (fun x hx => hpre x (List.mem_cons_of_mem n hx))
      refine ⟨msg, ?_, hnames⟩
      simpa [dukRegisterJsObject, hv, hcall, hmk] using hmsg
    · intro hbad hpre
      obtain ⟨hu, hf, hmk⟩ := hpre n (List.mem_cons_self n pre)
      obtain ⟨msg, hmsg, hnames⟩ := (ih (acc ++ [n])).2 hbad
        (fun x hx => hpre x (List.mem_cons_of_mem n hx))
      refine ⟨msg, ?_, hnames⟩
      simpa [qjsRegisterJsObject, hu, hf, hmk] using hmsg

/-- Witness for the amended C5: with one healthy entry before it, the
missing entry "bad" makes registration fail with a diagnostic naming
"bad", in both variants. -/
theorem C5_amended_first_failure_witness :
    (∃ msg, dukRegisterJsObject (fun (_ : Nat) => true) "xx" true
        (fun n => if n = "ok1" then some 1 else none) (fun _ => .ok ()) true
        (["ok1"] ++ "bad" :: ["later"]) [] = .error msg ∧ msgNames msg "bad" = true) ∧
    (∃ msg, qjsRegisterJsObject (fun (v : Nat) => v == 0) (fun v => v == 1) "xx" true
        (fun n => if n = "ok1" then 1 else 0) (fun _ => .ok ()) true
        (["ok1"] ++ "bad" :: ["later"]) [] = .error msg ∧ msgNames msg "bad" = true) := by
  have h := C5_amended_first_failure (fun (_ : Nat) => true) (fun (v : Nat) => v == 0)
    (fun v => v == 1) "xx" (fun n => if n = "ok1" then some 1 else none)
    (fun n => if n = "ok1" then 1 else 0) (fun _ => .ok ()) (fun _ => .ok ())
    ["ok1"] "bad" ["later"] []
  constructor
  · exact h.1 (Or.inl rfl) (by intro n hn; simp at hn; subst hn; exact ⟨⟨1, rfl, rfl⟩, rfl⟩)
  · exact h.2 (Or.inl rfl) (by intro n hn; simp at hn; subst hn; exact ⟨rfl, rfl, rfl⟩)

/-! ## C6 -/

/-- C6 counterexample: for a concrete variadic two-parameter method the
JavaScriptMethod constructor builds the trailing vararg element codec with
boxed = false (from the generic element parameter), so not every argument
marshaller of the ScriptMethodInvoker is constructed in boxed form. -/
theorem C6_counterexample :
    (jsMethodArgTypes (fun p => p + 10) [0, 1] true).getLast? = some (JTypeRep.mk 11 false) ∧
    ((jsMethodArgTypes (fun p => p + 10) [0, 1] true).all JTypeRep.boxed) = false := by
  constructor <;> rfl

/-- C6 (amended): the JavaScriptMethod constructor builds the return codec
boxed and every fixed (non-vararg) argument codec boxed, but the trailing
vararg slot codec is built from the generic element parameter with
boxed = false. -/
theorem C6_amended_boxed_except_vararg {P : Type} (genericParameter : P → P)
    (params : List P) (isVarArgs : Bool) (ret : P) :
    (jsMethodReturnType ret).boxed = true ∧
    (∀ i, (h : i < params.length) → ¬(isVarArgs = true ∧ i = params.length - 1) →
      (jsMethodArgTypes genericParameter params isVarArgs)[i]? =
        some (JTypeRep.mk (params.get ⟨i, h⟩) true)) ∧
    (isVarArgs = true → ∀ pl, params.getLast? = some pl →
      (jsMethodArgTypes genericParameter params isVarArgs).getLast? =
        some (JTypeRep.mk (genericParameter pl) false)) := by
  refine ⟨rfl, ?_, ?_⟩
  · intro i h hn
    have hp : params[i]? = some (params.get ⟨i, h⟩) := by
      rw [List.getElem?_eq_getElem h]
      rfl
    simp [jsMethodArgTypes, List.enum_eq_enumFrom, hp, hn]
  · intro hv pl hpl
    have hlen : 0 < params.length := by
      cases params with
      | nil => simp at hpl
      | cons a t => simp
    have hp : params[params.length - 1]? = some pl := by
      rw [← List.getLast?_eq_getElem?]
      exact hpl
    rw [List.getLast?_eq_getElem?]
    have hlen2 : (jsMethodArgTypes genericParameter params isVarArgs).length = params.length := by
      simp [jsMethodArgTypes]
    rw [hlen2]
    simp [jsMethodArgTypes, List.enum_eq_enumFrom, hp, hv]

/-- Witness for the amended C6 at a concrete variadic method: the fixed
slot is boxed and the vararg slot is unboxed. -/
theorem C6_amended_boxed_except_vararg_witness :
    (jsMethodReturnType (5 : Nat)).boxed = true ∧
    (jsMethodArgTypes (fun p => p + 10) [0, 1] true)[0]? = some (JTypeRep.mk 0 true) ∧
    (jsMethodArgTypes (fun p => p + 10) [0, 1] true).getLast? = some (JTypeRep.mk 11 false) := by
  have h := C6_amended_boxed_except_vararg (fun p => p + 10) [0, 1] true 5
  exact ⟨h.1, h.2.1 0 (by decide) (by decide), h.2.2 rfl 1 rfl⟩

/-! ## C7 -/

/-- Kotlin type with no type arguments (for example IntArray, or any
non-generic classifier), used in counterexamples. -/
def exKTypeNoArgs : KTypeM := KTypeM.mk []

/-- An array class with a non-primitive component type. -/
def exArrClass : ClassM :=
  ClassM.mk "[LElem;" false (some (ClassM.mk "Elem" false none [])) []

/-- A parameter carrying Kotlin type information that yields no generic
argument, over an array class with a non-primitive component. -/
def exParamNoGeneric : ParameterM :=
  { kotlinType := some exKTypeNoArgs, javaClass := some exArrClass,
    pname := none, isOptional := false }

/-- C7 counterexample: when Kotlin type information is present but yields
no first type argument (no generic argument at all), both
Parameter.getComponentType and Parameter.getGenericParameter return null —
they do not fall back to the raw component type or to the erased Object
descriptor — so the result can be absent, contrary to the claim. -/
theorem C7_counterexample :
    ParameterM.getComponentType (fun _ => none) exParamNoGeneric = none ∧
    ParameterM.getGenericParameter (fun _ => none) exParamNoGeneric = none := by
  constructor <;> rfl

/-- C7 (amended): the element descriptor of getComponentType is the raw
primitive component when the array component is primitive; otherwise, with
no Kotlin type information it is the raw component type when one exists and
the erased Object descriptor when not; with Kotlin type information it is
the first generic type argument when that yields a type, and otherwise the
result is absent (null).  getGenericParameter is the erased Object
descriptor without Kotlin type information, and otherwise the first generic
type argument when it yields a type, else absent (null). -/
theorem C7_amended_element_descriptor (fJ : KTypeM → Option ClassM) (p : ParameterM) :
    (∀ c, p.javaClass.bind ClassM.componentType = some c → c.isPrimitive = true →
      p.getComponentType fJ = some (ParameterM.ofClass c)) ∧
    (p.kotlinType = none →
      (p.javaClass.bind ClassM.componentType).map ClassM.isPrimitive ≠ some true →
      p.getComponentType fJ =
        some (ParameterM.ofClass ((p.javaClass.bind ClassM.componentType).getD anyClass))) ∧
    (∀ t, p.kotlinType = some t →
      (p.javaClass.bind ClassM.componentType).map ClassM.isPrimitive ≠ some true →
      p.getComponentType fJ = (t.arguments.head?.bind id).map (ParameterM.ofKType fJ)) ∧
    (p.kotlinType = none → p.getGenericParameter fJ = some (ParameterM.ofClass anyClass)) ∧
    (∀ t, p.kotlinType = some t →
      p.getGenericParameter fJ = (t.arguments.head?.bind id).map (ParameterM.ofKType fJ)) := by
  refine ⟨?_, ?_, ?_, ?_, ?_⟩
  · intro c hc hp
    simp [ParameterM.getComponentType, hc, hp]
  · intro hk hnp
    cases hc : p.javaClass.bind ClassM.componentType with
    | none => simp [ParameterM.getComponentType, hc, hk]
    | some c =>
      rw [hc] at hnp
      have : c.isPrimitive = false := by
        cases h : c.isPrimitive
        · rfl
        · exact absurd (by simp [h]) hnp
      simp [ParameterM.getComponentType, hc, hk, this]
  · intro t ht hnp
    cases hc : p.javaClass.bind ClassM.componentType with
    | none => simp [ParameterM.getComponentType, hc, ht]
    | some c =>
      rw [hc] at hnp
      have : c.isPrimitive = false := by
        cases h : c.isPrimitive
        · rfl
        · exact absurd (by simp [h]) hnp
      simp [ParameterM.getComponentType, hc, ht, this]
  · intro hk
    simp [ParameterM.getGenericParameter, hk]
  · intro t ht
    simp [ParameterM.getGenericParameter, ht]

/-- An int[] class with primitive component, for witnesses. -/
def exIntArrClass : ClassM :=
  ClassM.mk "[I" false (some (ClassM.mk "int" true none [])) []

/-- Witness for the amended C7: a raw int[] parameter yields the primitive
component descriptor, and a Kotlin-typed parameter without a generic
argument yields an absent component descriptor. -/
theorem C7_amended_element_descriptor_witness :
    ParameterM.getComponentType (fun _ => none)
      { kotlinType := none, javaClass := some exIntArrClass, pname := none, isOptional := false } =
      some (ParameterM.ofClass (ClassM.mk "int" true none [])) ∧
    ParameterM.getComponentType (fun _ => none) exParamNoGeneric = none := by
  constructor
  · exact (C7_amended_element_descriptor (fun _ => none)
      { kotlinType := none, javaClass := some exIntArrClass, pname := none,
        isOptional := false }).1 (ClassM.mk "int" true none []) rfl rfl
  · have h := (C7_amended_element_descriptor (fun _ => none) exParamNoGeneric).2.2.1
      exKTypeNoArgs rfl (by decide)
    simpa using h

/-! ## C8 -/

/-- C8: Parameter.invokeMethod first attempts the kotlin-reflect member
lookup; a throwable from it is caught (never propagated) and treated as
unavailable, after which resolution falls back to scanning the raw Java
class methods for one literally named invoke.  Under the callable-wrapper
side condition that the member lookup, when it completes, finds an invoke
member (the FunctionX interface owns one), the result is null only when the
raw class owns no invoke method either. -/
theorem C8_invoke_method_resolution (memberInvoke : KTypeM → Except Unit (Option Nat))
    (p : ParameterM)
    (hwrap : ∀ t, p.kotlinType = some t → memberInvoke t ≠ .ok none) :
    (∀ t f, p.kotlinType = some t → memberInvoke t = .ok (some f) →
      p.invokeMethod memberInvoke = some (MethodR.fromKotlin f)) ∧
    (∀ t, p.kotlinType = some t → memberInvoke t = .error () →
      p.invokeMethod memberInvoke = p.invokeJavaFallback) ∧
    (p.kotlinType = none → p.invokeMethod memberInvoke = p.invokeJavaFallback) ∧
    (p.invokeMethod memberInvoke = none → p.javaHasInvoke = false) := by
  refine ⟨?_, ?_, ?_, ?_⟩
  · intro t f ht hm
    simp [ParameterM.invokeMethod, ht, hm]
  · intro t ht hm
    simp [ParameterM.invokeMethod, ht, hm]
  · intro hk
    simp [ParameterM.invokeMethod, hk]
  · intro hres
    have hfb : p.invokeJavaFallback = none → p.javaHasInvoke = false := by
      intro hf
      unfold ParameterM.invokeJavaFallback at hf
      unfold ParameterM.javaHasInvoke
      cases hjc : p.javaClass with
      | none => simp
      | some c =>
        simp only [hjc] at hf ⊢
        cases hfind : c.methods.find? (fun n => n = "invoke") with
        | some jm =>
          simp only [hfind] at hf
          cases hk : p.kotlinType <;> simp [hk] at hf
        | none =>
          have hnone := List.find?_eq_none.mp hfind
          rw [List.contains_eq_any_beq, List.any_eq_false]
          intro x hx
          simp only [beq_iff_eq]
          intro hbeq
          exact absurd (by simp [hbeq] : decide (x = "invoke") = true) (hnone x hx)
    cases hk : p.kotlinType with
    | none =>
      apply hfb
      rw [← hres]
      simp [ParameterM.invokeMethod, hk]
    | some t =>
      cases hm : memberInvoke t with
      | ok r =>
        cases r with
        | none => exact absurd hm (hwrap t hk)
        | some f =>
          rw [(by simp [ParameterM.invokeMethod, hk, hm] :
            p.invokeMethod memberInvoke = some (MethodR.fromKotlin f))] at hres
          exact absurd hres (by simp)
      | error u =>
        apply hfb
        rw [← hres]
        cases u
        simp [ParameterM.invokeMethod, hk, hm]

/-- A FunctionX-like class owning an invoke method, for witnesses. -/
def exFunClass : ClassM := ClassM.mk "Function1" false none ["invoke"]

/-- Witness for C8: a parameter whose kotlin-reflect member lookup crashes
falls back to the Java scan and resolves the literal invoke method, with
the FunctionX type arguments merged in. -/
theorem C8_invoke_method_resolution_witness :
    ParameterM.invokeMethod (fun _ => .error ())
      { kotlinType := some exKTypeNoArgs, javaClass := some exFunClass,
        pname := none, isOptional := false } =
      some (MethodR.fromJavaWithArgs "invoke" []) := by
  have h := (C8_invoke_method_resolution (fun _ => .error ())
    { kotlinType := some exKTypeNoArgs, javaClass := some exFunClass,
      pname := none, isOptional := false }
    (fun _ _ => by simp)).2.1 exKTypeNoArgs rfl rfl
  rw [h]
  rfl

end JsBridge
